import Mathlib

/-!
Verification of the certificate-renewal scheduler in
`acme/autocert/renewal.go` (package autocert): the per-domain renewal
record (`domainRenewal`), its timer lifecycle (`start`, `stop`, `renew`),
its race-tolerant renewal algorithm (`do`), the shared-map commit
(`updateState`) and the jittered delay computation (`next`).

Times and durations are modelled as `Int` (nanoseconds, matching Go's
`time.Duration`). Randomness (`pseudoRand.int63n`) is modelled by
threading an explicit list of draws, one popped per `int63n` call, in
call order. External collaborators of the `Manager` that are not part of
the source file (cache access, the issuer, TLS-artifact derivation, the
clock, the configured lead time) are oracle fields of an environment
record. Lock acquisition and remote calls are additionally recorded as
an event trace so that lock-discipline claims can be stated.
-/

/-- `time.Hour` in nanoseconds: the constant `renewJitter` of the source
(`const renewJitter = time.Hour`), the maximum deviation from
`Manager.RenewBefore`. -/
def renewJitter : Int := 3600000000000

/-- Modelled from the spec: DomainKey, the immutable identifier of a
managed certificate slot (`certKey` in autocert: domain name plus key
type); only its decidable equality is used here. -/
structure certKey where
  domain : String
  isRSA : Bool
deriving DecidableEq, Repr

/-- Modelled from the spec: an abstract signing key (`crypto.Signer`),
identified by an id; only identity matters to the scheduler. -/
abbrev Key := Nat

/-- A certificate chain (`[][]byte` in Go), compared byte for byte. -/
abbrev DerChain := List (List Nat)

/-- Modelled from the spec: the parsed leaf certificate
(`x509.Certificate`); the scheduler only reads its `NotAfter` expiry. -/
structure Leaf where
  notAfter : Int
deriving DecidableEq, Repr

/-- One generation of a certificate (`certState` in autocert): signing
key, chain bytes and parsed leaf. -/
structure certState where
  key : Key
  cert : DerChain
  leaf : Leaf
deriving DecidableEq, Repr

/-- Modelled from the spec: the handshake-ready TLS artifact
(`tls.Certificate`) as read back from the cache. `privateKey = some k`
models a `PrivateKey` whose type assertion to `crypto.Signer` succeeds
with key `k`; `none` models a key without signing capability. -/
structure TLSCert where
  certificate : DerChain
  privateKey : Option Key
  leaf : Leaf
deriving DecidableEq, Repr

/-- Why `do` failed: the issuer call, the TLS-artifact derivation, or
the cache write. (Go propagates the underlying error value; only the
step of origin matters to the claims.) -/
inductive DoErr where
  | issueErr
  | deriveErr
  | putErr
deriving DecidableEq, Repr

/-- Events recorded while the scheduler runs: lock acquisitions and
releases of the two mutexes (`dr.timerMu`, `dr.m.stateMu`) and the
remote calls (`cacheGet`, `authorizedCert`, `cachePut`) plus the local
TLS-artifact derivation. `callIssue` carries the signing key passed to
the issuer. -/
inductive Event where
  | lockTimer
  | unlockTimer
  | lockState
  | unlockState
  | callCacheGet
  | callIssue (k : Key)
  | callDerive
  | callCachePut
deriving DecidableEq, Repr

/-- `true` on the events that are network or cache calls (`cacheGet`,
`authorizedCert`, `cachePut`); artifact derivation is local. -/
def remoteCall : Event → Bool
  | Event.callCacheGet => true
  | Event.callIssue _ => true
  | Event.callCachePut => true
  | _ => false

/-- Scans an event trace and returns `true` iff some network or cache
call happens while the given lock is held (acquire count exceeds
release count at that point). -/
def callWhileHeld (lock unlock : Event) : List Event → Nat → Bool
  | [], _ => false
  | e :: rest, depth =>
    if e = lock then callWhileHeld lock unlock rest (depth + 1)
    else if e = unlock then callWhileHeld lock unlock rest (depth - 1)
    else if remoteCall e && decide (0 < depth) then true
    else callWhileHeld lock unlock rest depth

/-- Modelled from the spec: the external collaborators and configuration
reachable through `dr.m` (the owning `Manager`), fixed for one call.
`cacheGetFails` models a transient `cacheGet` error; a cache miss is a
`none` entry in the cache map. `issue` is `Manager.authorizedCert`
applied to a signing key and domain key. `derive` is
`certState.tlscert()`, `none` on a malformed key/chain pairing.
`putFails` models a `cachePut` error, after which the cache holds the
unconstrained contents `failCache` (a failed write promises nothing). -/
structure Env where
  now : Int
  renewBefore : Int
  cacheGetFails : Bool
  issue : Key → certKey → Except Unit (DerChain × Leaf)
  derive : certState → Option TLSCert
  putFails : Bool
  failCache : certKey → Option TLSCert

/-- The state a `domainRenewal` record can reach and mutate: its domain
key `ck`, its current signing key `key`, its guarded timer handle
`timer` (`some d` = armed with delay `d`, `none` = not armed), together
with the shared map `Manager.state` and the shared cache contents that
`do` and `updateState` read and write. -/
structure DRState where
  ck : certKey
  key : Key
  timer : Option Int
  state : certKey → Option certState
  cache : certKey → Option TLSCert

/-- `domainRenewal.next`: `d := expiry.Sub(now) - renewBefore; d -= n;
if d < 0 { return 0 }; return d`, with the random draw `n` (from
`pseudoRand.int63n(int64(renewJitter))`, hence in `[0, renewJitter)`)
passed explicitly as `u`. -/
def nextD (expiry now renewBefore u : Int) : Int :=
  let d := expiry - now - renewBefore
  let d := d - u
  if d < 0 then 0 else d

/-- Pops the next `int63n` draw from the stream (the stream never runs
dry in any theorem; the empty-list default is a modelling artifact). -/
def takeDraw : List Int → Int × List Int
  | [] => (0, [])
  | u :: rest => (u, rest)

/-- `domainRenewal.updateState`: under `dr.m.stateMu`, sets
`dr.key = state.key` and `dr.m.state[dr.ck] = state`. -/
def updateState (dr : DRState) (st : certState) : DRState :=
  { dr with
    key := st.key
    state := fun k => if k = dr.ck then some st else dr.state k }

/-- The events of one `updateState` call: acquiring and releasing
`dr.m.stateMu` (the map write between them is not a remote call). -/
def updateStateEvents : List Event := [Event.lockState, Event.unlockState]

/-- The result of one `do` call: the returned interval and error, the
state after the call, the remaining draw stream and the event trace. -/
structure DoOut where
  ret : Int
  err : Option DoErr
  dr : DRState
  us : List Int
  evs : List Event

/-- Lines 121-143 of `do`, the issuance path: call
`dr.m.authorizedCert(ctx, dr.key, dr.ck)`; on success build
`certState{key: dr.key, cert: der, leaf: leaf}`, derive its TLS artifact
via `state.tlscert()`, persist it with `dr.m.cachePut`, and only then
`dr.updateState(state)` and return `dr.next(leaf.NotAfter)`. Any failure
returns `(0, err)` with no mutation (a failed `cachePut` leaves the
cache in the unconstrained state `env.failCache`). `evs0` is the trace
accumulated before reaching this path. -/
def issuance (env : Env) (dr : DRState) (us : List Int) (evs0 : List Event) : DoOut :=
  match env.issue dr.key dr.ck with
  | Except.error _ => ⟨0, some DoErr.issueErr, dr, us, evs0 ++ [Event.callIssue dr.key]⟩
  | Except.ok (der, leaf) =>
    let st : certState := ⟨dr.key, der, leaf⟩
    match env.derive st with
    | none =>
      ⟨0, some DoErr.deriveErr, dr, us, evs0 ++ [Event.callIssue dr.key, Event.callDerive]⟩
    | some tlscert =>
      if env.putFails then
        ⟨0, some DoErr.putErr, { dr with cache := env.failCache }, us,
          evs0 ++ [Event.callIssue dr.key, Event.callDerive, Event.callCachePut]⟩
      else
        let dr1 := { dr with
          cache := fun k => if k = dr.ck then some tlscert else dr.cache k }
        let dr2 := updateState dr1 st
        ⟨nextD leaf.notAfter env.now env.renewBefore (takeDraw us).1, none, dr2,
          (takeDraw us).2,
          evs0 ++ [Event.callIssue dr.key, Event.callDerive, Event.callCachePut]
            ++ updateStateEvents⟩

/-- `domainRenewal.do`: first `dr.m.cacheGet(ctx, dr.ck)`; on success
compute `next := dr.next(tlscert.Leaf.NotAfter)`; if
`next > dr.m.renewBefore() + renewJitter` and the cached private key
asserts to `crypto.Signer`, adopt the cached certificate (build a
`certState` from it, `dr.updateState(state)`, return `(next, nil)`);
otherwise fall through to the issuance path. -/
def doRenewal (env : Env) (dr : DRState) (us : List Int) : DoOut :=
  match (if env.cacheGetFails then none else dr.cache dr.ck) with
  | none => issuance env dr us [Event.callCacheGet]
  | some tlscert =>
    let nxt := nextD tlscert.leaf.notAfter env.now env.renewBefore (takeDraw us).1
    if nxt > env.renewBefore + renewJitter then
      match tlscert.privateKey with
      | some signer =>
        let st : certState := ⟨signer, tlscert.certificate, tlscert.leaf⟩
        ⟨nxt, none, updateState dr st, (takeDraw us).2,
          [Event.callCacheGet] ++ updateStateEvents⟩
      | none => issuance env dr (takeDraw us).2 [Event.callCacheGet]
    else issuance env dr (takeDraw us).2 [Event.callCacheGet]

/-- The result of one `renew` fire: the state after the call, the
remaining draw stream, the arguments passed to the observability hook
`testDidRenewLoop` (`none` when the callback aborted early), and the
event trace. -/
structure RenewOut where
  dr : DRState
  us : List Int
  hook : Option (Int × Option DoErr)
  evs : List Event

/-- `domainRenewal.renew`, the timer-fire callback: take `dr.timerMu`
(released only on return, by `defer`); if `dr.timer == nil` return
silently; otherwise run `dr.do`; on error set
`next := renewJitter/2 + pseudoRand.int63n(int64(renewJitter/2))`;
re-arm `dr.timer = time.AfterFunc(next, dr.renew)` and call
`testDidRenewLoop(next, err)`. -/
def renew (env : Env) (dr : DRState) (us : List Int) : RenewOut :=
  match dr.timer with
  | none => ⟨dr, us, none, [Event.lockTimer, Event.unlockTimer]⟩
  | some _ =>
    let o := doRenewal env dr us
    match o.err with
    | none =>
      ⟨{ o.dr with timer := some o.ret }, o.us, some (o.ret, none),
        [Event.lockTimer] ++ o.evs ++ [Event.unlockTimer]⟩
    | some e =>
      let nxt := renewJitter / 2 + (takeDraw o.us).1
      ⟨{ o.dr with timer := some nxt }, (takeDraw o.us).2, some (nxt, some e),
        [Event.lockTimer] ++ o.evs ++ [Event.unlockTimer]⟩

/-- `domainRenewal.start`: under `dr.timerMu`, no-op if `dr.timer` is
already set, otherwise arm `dr.timer = time.AfterFunc(dr.next(exp),
dr.renew)` (consuming one random draw inside `next`). -/
def start (env : Env) (exp : Int) (dr : DRState) (us : List Int) : DRState × List Int :=
  match dr.timer with
  | some _ => (dr, us)
  | none =>
    ({ dr with timer := some (nextD exp env.now env.renewBefore (takeDraw us).1) },
      (takeDraw us).2)

/-- `domainRenewal.stop`: under `dr.timerMu`, cancel the timer if armed
and clear the handle (a no-op when already stopped). -/
def stop (dr : DRState) : DRState := { dr with timer := none }

/-- The events of one `start` call: only the timer lock is taken and
released; no remote call is made. -/
def startEvents : List Event := [Event.lockTimer, Event.unlockTimer]

/-- The events of one `stop` call: only the timer lock is taken and
released; no remote call is made. -/
def stopEvents : List Event := [Event.lockTimer, Event.unlockTimer]

/-- C1: for every expiry `E`, current time `N`, lead time `L`,
jitter window `renewJitter` and uniform draw `u ∈ [0, renewJitter)`,
the delay computation `next` returns exactly
`max 0 ((E - N) - L - u)`; in particular the result is never
negative. -/
theorem next_delay_spec (E N L u : Int) (h0 : 0 ≤ u) (h1 : u < renewJitter) :
    nextD E N L u = max 0 ((E - N) - L - u) ∧ 0 ≤ nextD E N L u := by
  simp only [nextD]
  constructor
  · split <;> omega
  · split <;> omega

/-- Witness for C1 at `E = 10`, `N = 2`, `L = 3`, `u = 1`. -/
theorem next_delay_spec_witness :
    nextD 10 2 3 1 = max 0 ((10 - 2) - 3 - 1) ∧ 0 ≤ nextD 10 2 3 1 :=
  next_delay_spec 10 2 3 1 (by decide) (by decide)

/-- C6: `start` is idempotent: a second `start` with no intervening
`stop` is a no-op (it changes neither the state nor the draw stream),
and after the first `start` exactly one timer is armed (the timer handle
is `some`; the `Option` handle makes more than one timer per domain
unrepresentable). -/
theorem start_idempotent (env : Env) (e1 e2 : Int) (dr : DRState) (us : List Int) :
    start env e2 (start env e1 dr us).1 (start env e1 dr us).2
      = start env e1 dr us
    ∧ (start env e1 dr us).1.timer.isSome = true := by
  cases h : dr.timer <;> simp [start, h]

/-- C7: the fire callback `renew` first checks the timer handle: if it
has been cleared it returns with the state untouched, no re-arm and no
hook call (only the timer lock is taken and released); otherwise,
whether `do` succeeds or fails, it re-arms a timer with some delay `n`
and invokes the observability hook with exactly `(n, error-or-none)` —
the loop only terminates via `stop`. -/
theorem renew_rearms_and_hooks (env : Env) (dr : DRState) (us : List Int) :
    (dr.timer = none →
      renew env dr us = ⟨dr, us, none, [Event.lockTimer, Event.unlockTimer]⟩)
    ∧ (dr.timer.isSome = true →
      ∃ n e, (renew env dr us).dr.timer = some n
        ∧ (renew env dr us).hook = some (n, e)) := by
  constructor
  · intro h
    simp [renew, h]
  · intro h
    cases ht : dr.timer with
    | none => simp [ht] at h
    | some t =>
      cases he : (doRenewal env dr us).err with
      | none =>
        exact ⟨(doRenewal env dr us).ret, none, by simp [renew, ht, he]⟩
      | some e =>
        refine ⟨renewJitter / 2 + (takeDraw (doRenewal env dr us).us).1, some e, ?_⟩
        simp [renew, ht, he]

/-- Witness for C7 in both branches: with no timer armed the callback is
a silent no-op, and with a timer armed it re-arms and calls the hook. -/
theorem renew_rearms_and_hooks_witness :
    (renew
        ⟨0, 0, true, fun _ _ => Except.error (), fun _ => none, false, fun _ => none⟩
        ⟨⟨"a", true⟩, 0, none, fun _ => none, fun _ => none⟩ []
      = ⟨⟨⟨"a", true⟩, 0, none, fun _ => none, fun _ => none⟩, [], none,
          [Event.lockTimer, Event.unlockTimer]⟩)
    ∧ (∃ n e,
        (renew
          ⟨0, 0, true, fun _ _ => Except.error (), fun _ => none, false, fun _ => none⟩
          ⟨⟨"a", true⟩, 0, some 5, fun _ => none, fun _ => none⟩ [7]).dr.timer = some n
        ∧ (renew
          ⟨0, 0, true, fun _ _ => Except.error (), fun _ => none, false, fun _ => none⟩
          ⟨⟨"a", true⟩, 0, some 5, fun _ => none, fun _ => none⟩ [7]).hook = some (n, e)) :=
  ⟨(renew_rearms_and_hooks _ _ _).1 rfl, (renew_rearms_and_hooks _ _ _).2 rfl⟩

/-- C5: when the renewal attempt fails, `renew` computes the next delay
as `renewJitter / 2` plus the uniform draw `v` from
`[0, renewJitter / 2)` (the `int63n(int64(next))` call), passes it to
the hook and re-arms with it; that backoff always lies in
`[renewJitter / 2, renewJitter)`. -/
theorem renew_error_backoff (env : Env) (dr : DRState) (us : List Int)
    (t : Int) (e : DoErr) (v : Int) (rest : List Int)
    (ht : dr.timer = some t)
    (he : (doRenewal env dr us).err = some e)
    (hus : (doRenewal env dr us).us = v :: rest)
    (hv : 0 ≤ v ∧ v < renewJitter / 2) :
    (renew env dr us).hook = some (renewJitter / 2 + v, some e)
    ∧ (renew env dr us).dr.timer = some (renewJitter / 2 + v)
    ∧ renewJitter / 2 ≤ renewJitter / 2 + v
    ∧ renewJitter / 2 + v < renewJitter := by
  refine ⟨?_, ?_, by omega, by simp only [renewJitter] at hv ⊢; omega⟩
  · simp [renew, ht, he, hus, takeDraw]
  · simp [renew, ht, he, hus, takeDraw]

/-- Witness for C5: an armed timer, an issuer that fails, and the draw
`v = 7` give a backoff of `renewJitter / 2 + 7`. -/
theorem renew_error_backoff_witness :
    (renew
        ⟨0, 0, true, fun _ _ => Except.error (), fun _ => none, false, fun _ => none⟩
        ⟨⟨"a", true⟩, 0, some 5, fun _ => none, fun _ => none⟩ [7]).hook
      = some (renewJitter / 2 + 7, some DoErr.issueErr)
    ∧ (renew
        ⟨0, 0, true, fun _ _ => Except.error (), fun _ => none, false, fun _ => none⟩
        ⟨⟨"a", true⟩, 0, some 5, fun _ => none, fun _ => none⟩ [7]).dr.timer
      = some (renewJitter / 2 + 7)
    ∧ renewJitter / 2 ≤ renewJitter / 2 + 7
    ∧ renewJitter / 2 + 7 < renewJitter :=
  renew_error_backoff _ _ _ 5 DoErr.issueErr 7 [] rfl rfl rfl (by decide)

/-- Helper for the failure-frame claims: when the issuance path of `do`
returns an error, the returned interval is `0` and the shared map, the
signing key, the timer handle and the domain key are unchanged; unless
the failing step was the cache write, the cache is unchanged too. -/
theorem issuance_failure_frame (env : Env) (dr : DRState) (us : List Int)
    (evs0 : List Event) (e : DoErr)
    (he : (issuance env dr us evs0).err = some e) :
    (issuance env dr us evs0).ret = 0
    ∧ (issuance env dr us evs0).dr.state = dr.state
    ∧ (issuance env dr us evs0).dr.key = dr.key
    ∧ (issuance env dr us evs0).dr.timer = dr.timer
    ∧ (issuance env dr us evs0).dr.ck = dr.ck
    ∧ (e ≠ DoErr.putErr → (issuance env dr us evs0).dr.cache = dr.cache) := by
  cases hiss : env.issue dr.key dr.ck with
  | error u =>
    simp [issuance, hiss]
  | ok p =>
    obtain ⟨der, leaf⟩ := p
    cases hder : env.derive ⟨dr.key, der, leaf⟩ with
    | none =>
      simp [issuance, hiss, hder]
    | some tlsc =>
      cases hput : env.putFails with
      | false => simp [issuance, hiss, hder, hput] at he
      | true =>
        simp [issuance, hiss, hder, hput] at he ⊢
        simp [← he]

/-- C3: whenever `do` fails — issuer failure, TLS-artifact derivation
failure or cache write failure — it returns an error (with interval 0)
and no partial commit occurs: the shared map, the record's signing key,
the timer handle and the domain key are exactly as before the call, and
for the pre-cache-write failures the cache is unchanged too. -/
theorem do_failure_frame (env : Env) (dr : DRState) (us : List Int) (e : DoErr)
    (he : (doRenewal env dr us).err = some e) :
    (doRenewal env dr us).ret = 0
    ∧ (doRenewal env dr us).dr.state = dr.state
    ∧ (doRenewal env dr us).dr.key = dr.key
    ∧ (doRenewal env dr us).dr.timer = dr.timer
    ∧ (doRenewal env dr us).dr.ck = dr.ck
    ∧ (e ≠ DoErr.putErr → (doRenewal env dr us).dr.cache = dr.cache) := by
  cases hg : (if env.cacheGetFails then none else dr.cache dr.ck) with
  | none =>
    simp only [doRenewal, hg] at he ⊢
    exact issuance_failure_frame env dr us [Event.callCacheGet] e he
  | some tlsc =>
    simp only [doRenewal, hg] at he ⊢
    by_cases hthr : nextD tlsc.leaf.notAfter env.now env.renewBefore (takeDraw us).1
        > env.renewBefore + renewJitter
    · cases hk : tlsc.privateKey with
      | some signer => simp [hthr, hk] at he
      | none =>
        simp only [hthr, hk, if_pos] at he ⊢
        exact issuance_failure_frame env dr (takeDraw us).2 [Event.callCacheGet] e he
    · simp only [if_neg hthr] at he ⊢
      exact issuance_failure_frame env dr (takeDraw us).2 [Event.callCacheGet] e he

/-- Witness for C3: a failing issuer on a cache miss leaves the state
(map, key, timer, domain key, cache) untouched. -/
theorem do_failure_frame_witness :
    (doRenewal
        ⟨0, 0, true, fun _ _ => Except.error (), fun _ => none, false, fun _ => none⟩
        ⟨⟨"a", true⟩, 0, none, fun _ => none, fun _ => none⟩ [7]).ret = 0
    ∧ (doRenewal
        ⟨0, 0, true, fun _ _ => Except.error (), fun _ => none, false, fun _ => none⟩
        ⟨⟨"a", true⟩, 0, none, fun _ => none, fun _ => none⟩ [7]).dr.state
      = (fun _ => none)
    ∧ (doRenewal
        ⟨0, 0, true, fun _ _ => Except.error (), fun _ => none, false, fun _ => none⟩
        ⟨⟨"a", true⟩, 0, none, fun _ => none, fun _ => none⟩ [7]).dr.key = 0
    ∧ (doRenewal
        ⟨0, 0, true, fun _ _ => Except.error (), fun _ => none, false, fun _ => none⟩
        ⟨⟨"a", true⟩, 0, none, fun _ => none, fun _ => none⟩ [7]).dr.timer = none
    ∧ (doRenewal
        ⟨0, 0, true, fun _ _ => Except.error (), fun _ => none, false, fun _ => none⟩
        ⟨⟨"a", true⟩, 0, none, fun _ => none, fun _ => none⟩ [7]).dr.ck = ⟨"a", true⟩
    ∧ (DoErr.issueErr ≠ DoErr.putErr →
      (doRenewal
        ⟨0, 0, true, fun _ _ => Except.error (), fun _ => none, false, fun _ => none⟩
        ⟨⟨"a", true⟩, 0, none, fun _ => none, fun _ => none⟩ [7]).dr.cache
      = (fun _ => none)) :=
  do_failure_frame _ _ _ DoErr.issueErr rfl

/-- Helper: the issuance path always invokes the issuer with the
record's current signing key `dr.key`, whatever the outcome. -/
theorem issuance_calls_issue (env : Env) (dr : DRState) (us : List Int)
    (evs0 : List Event) :
    Event.callIssue dr.key ∈ (issuance env dr us evs0).evs := by
  cases hiss : env.issue dr.key dr.ck with
  | error u => simp [issuance, hiss]
  | ok p =>
    obtain ⟨der, leaf⟩ := p
    cases hder : env.derive ⟨dr.key, der, leaf⟩ with
    | none => simp [issuance, hiss, hder]
    | some tlsc =>
      cases hput : env.putFails with
      | false => simp [issuance, hiss, hder, hput, updateStateEvents]
      | true => simp [issuance, hiss, hder, hput]

/-- C2: when the cache read succeeds, the recomputed delay of the cached
certificate exceeds `renewBefore + renewJitter`, and its private key
asserts to a signer, `do` adopts the cached certificate: it builds the
`certState` from the cached artifact, commits it through `updateState`
(under the shared-map lock), returns that recomputed delay with no
error, and never calls the issuer. -/
theorem do_adopts_peer (env : Env) (dr : DRState) (t : TLSCert) (k : Key)
    (u : Int) (rest : List Int)
    (hget : env.cacheGetFails = false)
    (hc : dr.cache dr.ck = some t)
    (hthr : nextD t.leaf.notAfter env.now env.renewBefore u
      > env.renewBefore + renewJitter)
    (hk : t.privateKey = some k) :
    doRenewal env dr (u :: rest)
      = ⟨nextD t.leaf.notAfter env.now env.renewBefore u, none,
          updateState dr ⟨k, t.certificate, t.leaf⟩, rest,
          [Event.callCacheGet] ++ updateStateEvents⟩
    ∧ ∀ k2, Event.callIssue k2 ∉ (doRenewal env dr (u :: rest)).evs := by
  have h : doRenewal env dr (u :: rest)
      = ⟨nextD t.leaf.notAfter env.now env.renewBefore u, none,
          updateState dr ⟨k, t.certificate, t.leaf⟩, rest,
          [Event.callCacheGet] ++ updateStateEvents⟩ := by
    simp only [doRenewal, hget, if_false, Bool.false_eq_true, hc, takeDraw]
    rw [if_pos hthr, hk]
  refine ⟨h, fun k2 => ?_⟩
  rw [h]
  simp [updateStateEvents]

/-- A concrete cached artifact well past the renewal threshold, with a
signing-capable key, used to witness the adoption claims. -/
def tlsFresh : TLSCert := ⟨[[1, 2]], some 5, ⟨7200000000000⟩⟩

/-- A concrete domain key used by the witnesses. -/
def ckW : certKey := ⟨"example.com", true⟩

/-- A concrete renewal state whose cache holds `tlsFresh` for `ckW`. -/
def drFresh : DRState :=
  ⟨ckW, 0, none, fun _ => none, fun k => if k = ckW then some tlsFresh else none⟩

/-- A concrete environment with a working cache, a failing issuer, zero
lead time and the clock at zero. -/
def envW : Env := ⟨0, 0, false, fun _ _ => Except.error (), fun _ => none, false, fun _ => none⟩

/-- Witness for C2 at `envW`, `drFresh`, draw `0`: the cached
certificate expiring at `2 * renewJitter` is adopted. -/
theorem do_adopts_peer_witness :
    doRenewal envW drFresh [0]
      = ⟨nextD tlsFresh.leaf.notAfter envW.now envW.renewBefore 0, none,
          updateState drFresh ⟨5, tlsFresh.certificate, tlsFresh.leaf⟩, [],
          [Event.callCacheGet] ++ updateStateEvents⟩
    ∧ ∀ k2, Event.callIssue k2 ∉ (doRenewal envW drFresh [0]).evs :=
  do_adopts_peer envW drFresh tlsFresh 5 0 [] rfl
    (by simp [drFresh]) (by decide) rfl

/-- C10: on the peer-adoption path, `do` never writes the cache (no
`cachePut` event, cache contents unchanged); its only mutations are the
shared-map entry for this domain and the record's signing-key reference,
both made by `updateState`: every other domain's map entry, the domain
key and the timer handle are unchanged. -/
theorem do_adopt_frame (env : Env) (dr : DRState) (t : TLSCert) (k : Key)
    (u : Int) (rest : List Int)
    (hget : env.cacheGetFails = false)
    (hc : dr.cache dr.ck = some t)
    (hthr : nextD t.leaf.notAfter env.now env.renewBefore u
      > env.renewBefore + renewJitter)
    (hk : t.privateKey = some k) :
    (doRenewal env dr (u :: rest)).dr.cache = dr.cache
    ∧ (∀ k2, k2 ≠ dr.ck → (doRenewal env dr (u :: rest)).dr.state k2 = dr.state k2)
    ∧ (doRenewal env dr (u :: rest)).dr.state dr.ck
        = some ⟨k, t.certificate, t.leaf⟩
    ∧ (doRenewal env dr (u :: rest)).dr.key = k
    ∧ (doRenewal env dr (u :: rest)).dr.ck = dr.ck
    ∧ (doRenewal env dr (u :: rest)).dr.timer = dr.timer
    ∧ Event.callCachePut ∉ (doRenewal env dr (u :: rest)).evs := by
  have h : doRenewal env dr (u :: rest)
      = ⟨nextD t.leaf.notAfter env.now env.renewBefore u, none,
          updateState dr ⟨k, t.certificate, t.leaf⟩, rest,
          [Event.callCacheGet] ++ updateStateEvents⟩ := by
    simp only [doRenewal, hget, if_false, Bool.false_eq_true, hc, takeDraw]
    rw [if_pos hthr, hk]
  rw [h]
  refine ⟨rfl, fun k2 hk2 => ?_, ?_, rfl, rfl, rfl, by simp [updateStateEvents]⟩
  · simp [updateState, hk2]
  · simp [updateState]

/-- Witness for C10 at `envW`, `drFresh`, draw `0`. -/
theorem do_adopt_frame_witness :
    (doRenewal envW drFresh [0]).dr.cache = drFresh.cache
    ∧ (∀ k2, k2 ≠ drFresh.ck → (doRenewal envW drFresh [0]).dr.state k2
        = drFresh.state k2)
    ∧ (doRenewal envW drFresh [0]).dr.state drFresh.ck
        = some ⟨5, tlsFresh.certificate, tlsFresh.leaf⟩
    ∧ (doRenewal envW drFresh [0]).dr.key = 5
    ∧ (doRenewal envW drFresh [0]).dr.ck = drFresh.ck
    ∧ (doRenewal envW drFresh [0]).dr.timer = drFresh.timer
    ∧ Event.callCachePut ∉ (doRenewal envW drFresh [0]).evs :=
  do_adopt_frame envW drFresh tlsFresh 5 0 [] rfl
    (by simp [drFresh]) (by decide) rfl

/-- C8: when the cached certificate is fresh enough but its private key
does not assert to a signer, `do` neither errors nor adopts: the whole
call is exactly the issuance path run with the record's existing signing
key (the issuer is invoked with `dr.key`). -/
theorem do_fallthrough_nonsigner (env : Env) (dr : DRState) (t : TLSCert)
    (u : Int) (rest : List Int)
    (hget : env.cacheGetFails = false)
    (hc : dr.cache dr.ck = some t)
    (hthr : nextD t.leaf.notAfter env.now env.renewBefore u
      > env.renewBefore + renewJitter)
    (hk : t.privateKey = none) :
    doRenewal env dr (u :: rest) = issuance env dr rest [Event.callCacheGet]
    ∧ Event.callIssue dr.key ∈ (doRenewal env dr (u :: rest)).evs := by
  have h : doRenewal env dr (u :: rest)
      = issuance env dr rest [Event.callCacheGet] := by
    simp only [doRenewal, hget, if_false, Bool.false_eq_true, hc, takeDraw]
    rw [if_pos hthr, hk]
  exact ⟨h, by rw [h]; exact issuance_calls_issue env dr rest [Event.callCacheGet]⟩

/-- A fresh cached artifact like `tlsFresh` but whose private key lacks
signing capability, used to witness the fall-through claim. -/
def tlsNoSigner : TLSCert := ⟨[[1, 2]], none, ⟨7200000000000⟩⟩

/-- A concrete renewal state whose cache holds `tlsNoSigner` for `ckW`. -/
def drNoSigner : DRState :=
  ⟨ckW, 0, none, fun _ => none, fun k => if k = ckW then some tlsNoSigner else none⟩

/-- Witness for C8 at `envW`, `drNoSigner`, draw `0`: despite the fresh
cached certificate, `do` runs the issuance path with key `0`. -/
theorem do_fallthrough_nonsigner_witness :
    doRenewal envW drNoSigner [0] = issuance envW drNoSigner [] [Event.callCacheGet]
    ∧ Event.callIssue drNoSigner.key ∈ (doRenewal envW drNoSigner [0]).evs :=
  do_fallthrough_nonsigner envW drNoSigner tlsNoSigner 0 [] rfl
    (by simp [drNoSigner]) (by decide) rfl

/-- C4: on the issuance path, the shared map entry and the record's
signing key change only after the cache write succeeds: if `cachePut`
fails they are untouched; if the issuer, the derivation and the cache
write all succeed, the shared map entry for this domain equals the newly
built `certState` (whose key is the record's key, kept unchanged), the
cache at this domain holds the TLS artifact derived from that same
state, and the returned interval is the delay computed from the new
leaf's expiry. -/
theorem issuance_commit (env : Env) (dr : DRState) (us : List Int)
    (evs0 : List Event) (der : DerChain) (leaf : Leaf) (tlsc : TLSCert)
    (hiss : env.issue dr.key dr.ck = Except.ok (der, leaf))
    (hder : env.derive ⟨dr.key, der, leaf⟩ = some tlsc) :
    (env.putFails = true →
      (issuance env dr us evs0).err = some DoErr.putErr
      ∧ (issuance env dr us evs0).dr.state = dr.state
      ∧ (issuance env dr us evs0).dr.key = dr.key)
    ∧ (env.putFails = false →
      (issuance env dr us evs0).err = none
      ∧ (issuance env dr us evs0).ret
          = nextD leaf.notAfter env.now env.renewBefore (takeDraw us).1
      ∧ (issuance env dr us evs0).dr.state dr.ck = some ⟨dr.key, der, leaf⟩
      ∧ (issuance env dr us evs0).dr.cache dr.ck = some tlsc
      ∧ (issuance env dr us evs0).dr.key = dr.key) := by
  constructor
  · intro hput
    simp [issuance, hiss, hder, hput]
  · intro hput
    simp [issuance, hiss, hder, hput, updateState]

/-- The leaf of the certificate a successful issuance returns in the
witness environment. -/
def leafNew : Leaf := ⟨7776000000000000⟩

/-- A concrete environment whose cache read fails transiently, whose
issuer succeeds with chain `[[3]]` and leaf `leafNew`, whose derivation
repackages the state as an artifact, and whose cache write succeeds. -/
def envIssue : Env :=
  ⟨0, 0, true, fun _ _ => Except.ok ([[3]], leafNew),
    fun st => some ⟨st.cert, some st.key, st.leaf⟩, false, fun _ => none⟩

/-- A concrete renewal state with an empty shared map and cache. -/
def drEmpty : DRState := ⟨ckW, 0, none, fun _ => none, fun _ => none⟩

/-- Witness for C4: in `envIssue` a successful issuance commits the new
state to the map and the derived artifact to the cache, keeps the key,
and returns the delay from `leafNew`. -/
theorem issuance_commit_witness :
    (issuance envIssue drEmpty [0] [Event.callCacheGet]).err = none
    ∧ (issuance envIssue drEmpty [0] [Event.callCacheGet]).ret
        = nextD leafNew.notAfter envIssue.now envIssue.renewBefore
            (takeDraw [0]).1
    ∧ (issuance envIssue drEmpty [0] [Event.callCacheGet]).dr.state drEmpty.ck
        = some ⟨drEmpty.key, [[3]], leafNew⟩
    ∧ (issuance envIssue drEmpty [0] [Event.callCacheGet]).dr.cache drEmpty.ck
        = some ⟨[[3]], some drEmpty.key, leafNew⟩
    ∧ (issuance envIssue drEmpty [0] [Event.callCacheGet]).dr.key = drEmpty.key :=
  (issuance_commit envIssue drEmpty [0] [Event.callCacheGet] [[3]] leafNew
    ⟨[[3]], some drEmpty.key, leafNew⟩ rfl rfl).2 rfl

/-- Helper: the event traces the issuance path can produce, appended to
the prefix `evs0`: issuer failure, derivation failure, cache-write
failure, or full success ending in the `updateState` lock section. -/
theorem issuance_evs_shape (env : Env) (dr : DRState) (us : List Int)
    (evs0 : List Event) :
    (issuance env dr us evs0).evs = evs0 ++ [Event.callIssue dr.key]
    ∨ (issuance env dr us evs0).evs
        = evs0 ++ [Event.callIssue dr.key, Event.callDerive]
    ∨ (issuance env dr us evs0).evs
        = evs0 ++ [Event.callIssue dr.key, Event.callDerive, Event.callCachePut]
    ∨ (issuance env dr us evs0).evs
        = evs0 ++ [Event.callIssue dr.key, Event.callDerive, Event.callCachePut,
            Event.lockState, Event.unlockState] := by
  cases hiss : env.issue dr.key dr.ck with
  | error u => left; simp [issuance, hiss]
  | ok p =>
    obtain ⟨der, leaf⟩ := p
    cases hder : env.derive ⟨dr.key, der, leaf⟩ with
    | none => right; left; simp [issuance, hiss, hder]
    | some tlsc =>
      cases hput : env.putFails with
      | true => right; right; left; simp [issuance, hiss, hder, hput]
      | false => right; right; right; simp [issuance, hiss, hder, hput, updateStateEvents]

/-- Helper: the five event traces one `do` call can produce: adoption,
or the four issuance-path traces, each beginning with the `cacheGet`
call. -/
theorem do_evs_shape (env : Env) (dr : DRState) (us : List Int) :
    (doRenewal env dr us).evs
        = [Event.callCacheGet, Event.lockState, Event.unlockState]
    ∨ (doRenewal env dr us).evs = [Event.callCacheGet, Event.callIssue dr.key]
    ∨ (doRenewal env dr us).evs
        = [Event.callCacheGet, Event.callIssue dr.key, Event.callDerive]
    ∨ (doRenewal env dr us).evs
        = [Event.callCacheGet, Event.callIssue dr.key, Event.callDerive,
            Event.callCachePut]
    ∨ (doRenewal env dr us).evs
        = [Event.callCacheGet, Event.callIssue dr.key, Event.callDerive,
            Event.callCachePut, Event.lockState, Event.unlockState] := by
  cases hg : (if env.cacheGetFails then none else dr.cache dr.ck) with
  | none =>
    have h := issuance_evs_shape env dr us [Event.callCacheGet]
    simp only [doRenewal, hg]
    refine Or.inr ?_
    simpa using h
  | some tlsc =>
    simp only [doRenewal, hg]
    by_cases hthr : nextD tlsc.leaf.notAfter env.now env.renewBefore (takeDraw us).1
        > env.renewBefore + renewJitter
    · cases hk : tlsc.privateKey with
      | some signer =>
        left
        simp [hthr, hk, updateStateEvents]
      | none =>
        have h := issuance_evs_shape env dr (takeDraw us).2 [Event.callCacheGet]
        simp only [hthr, hk, if_pos]
        refine Or.inr ?_
        simpa using h
    · have h := issuance_evs_shape env dr (takeDraw us).2 [Event.callCacheGet]
      simp only [if_neg hthr]
      refine Or.inr ?_
      simpa using h

/-- Helper: when the timer is armed, the trace of one `renew` fire is
the whole `do` trace bracketed by the acquire and the deferred release
of the timer lock. -/
theorem renew_evs_shape (env : Env) (dr : DRState) (us : List Int) (t : Int)
    (ht : dr.timer = some t) :
    (renew env dr us).evs
      = [Event.lockTimer] ++ (doRenewal env dr us).evs ++ [Event.unlockTimer] := by
  cases he : (doRenewal env dr us).err with
  | none => simp [renew, ht, he]
  | some e => simp [renew, ht, he]

/-- A concrete renewal state with an armed timer, an empty map and an
empty cache, used to exhibit a fire of `renew`. -/
def drArmed : DRState := ⟨ckW, 0, some 5, fun _ => none, fun _ => none⟩

/-- Counterexample to C9 as stated: in a concrete armed fire of `renew`
(cache miss, issuer failure), the trace contains network and cache calls
made while the timer lock is held — `renew` takes `timerMu` and, by
`defer`, releases it only after the whole `do` call, so the timer lock
is held across the `cacheGet` and issuer calls. -/
theorem timer_lock_held_across_calls :
    callWhileHeld Event.lockTimer Event.unlockTimer (renew envW drArmed []).evs 0
      = true := by
  rfl

/-- C9 (amended): the shared-map lock is never held across a network or
cache call, and `start` and `stop` hold the timer lock only briefly with
no network or cache call under it; but the timer lock is not so
disciplined in `renew`: every armed fire performs its network and cache
calls while holding the timer lock. -/
theorem locks_discipline (env : Env) (dr : DRState) (us : List Int) :
    callWhileHeld Event.lockState Event.unlockState (renew env dr us).evs 0 = false
    ∧ callWhileHeld Event.lockState Event.unlockState startEvents 0 = false
    ∧ callWhileHeld Event.lockState Event.unlockState stopEvents 0 = false
    ∧ callWhileHeld Event.lockTimer Event.unlockTimer startEvents 0 = false
    ∧ callWhileHeld Event.lockTimer Event.unlockTimer stopEvents 0 = false
    ∧ (dr.timer.isSome = true →
        callWhileHeld Event.lockTimer Event.unlockTimer (renew env dr us).evs 0
          = true) := by
  refine ⟨?_, by decide, by decide, by decide, by decide, ?_⟩
  · cases ht : dr.timer with
    | none => simp [renew, ht, callWhileHeld, remoteCall]
    | some t =>
      rw [renew_evs_shape env dr us t ht]
      rcases do_evs_shape env dr us with h | h | h | h | h <;>
        rw [h] <;> simp [callWhileHeld, remoteCall]
  · intro h
    obtain ⟨t, ht⟩ := Option.isSome_iff_exists.mp h
    rw [renew_evs_shape env dr us t ht]
    rcases do_evs_shape env dr us with h2 | h2 | h2 | h2 | h2 <;>
      rw [h2] <;> simp [callWhileHeld, remoteCall]

/-- Witness for the amended C9 at `envW`, `drArmed`: the shared-map lock
is not held across any call in the fire, and the timer lock is. -/
theorem locks_discipline_witness :
    callWhileHeld Event.lockState Event.unlockState (renew envW drArmed []).evs 0
      = false
    ∧ callWhileHeld Event.lockTimer Event.unlockTimer (renew envW drArmed []).evs 0
      = true :=
  ⟨(locks_discipline envW drArmed []).1,
    (locks_discipline envW drArmed []).2.2.2.2.2 rfl⟩
